import Mathlib

/-!
Shallow embedding of `dental-mcp-server.py` (dental-calendar-mcp).

The appointment store is the module-level Python dict `appointments`,
modelled as an insertion-ordered association list from slot-key strings to
appointment records.  Date/time handling follows CPython's
`datetime.strptime` / `strftime` for the formats `"%Y-%m-%d %H:%M"` and
`"%Y-%m-%d"` (each `_strptime` directive is translated with the
alternation order of its regular expression; ASCII whitespace for `\s+`),
and the clinic settings are the `load_dental_settings` fallback defaults
(no `config/dental-settings.json` file exists in the repository).
-/

/-- Value of a decimal digit character. -/
def digitVal (c : Char) : Nat := c.toNat - 48

/-- ASCII whitespace, the characters matched by the `\s+` that
`_strptime` substitutes for literal whitespace in the format string. -/
def isSpaceChar (c : Char) : Bool :=
  c = ' ' || c = '\t' || c = '\n' || c = '\x0b' || c = '\x0c' || c = '\r'

/-- `%Y` directive: exactly four decimal digits. -/
def matchYear : List Char → Option (Nat × List Char)
  | a :: b :: c :: d :: rest =>
    if a.isDigit && b.isDigit && c.isDigit && d.isDigit then
      some (1000 * digitVal a + 100 * digitVal b + 10 * digitVal c + digitVal d, rest)
    else none
  | _ => none

/-- `%m` directive, regex `1[0-2]|0[1-9]|[1-9]` (alternatives tried in order). -/
def matchMonth : List Char → Option (Nat × List Char)
  | '1' :: c :: rest =>
    if c = '0' || c = '1' || c = '2' then some (10 + digitVal c, rest)
    else some (1, c :: rest)
  | '1' :: [] => some (1, [])
  | '0' :: c :: rest =>
    if '1' ≤ c && c ≤ '9' then some (digitVal c, rest) else none
  | c :: rest =>
    if '1' ≤ c && c ≤ '9' then some (digitVal c, rest) else none
  | [] => none

/-- `%d` directive, regex `3[01]|[12]\d|0[1-9]|[1-9]`. -/
def matchDay : List Char → Option (Nat × List Char)
  | '3' :: c :: rest =>
    if c = '0' || c = '1' then some (30 + digitVal c, rest)
    else some (3, c :: rest)
  | '3' :: [] => some (3, [])
  | '1' :: c :: rest =>
    if c.isDigit then some (10 + digitVal c, rest) else some (1, c :: rest)
  | '1' :: [] => some (1, [])
  | '2' :: c :: rest =>
    if c.isDigit then some (20 + digitVal c, rest) else some (2, c :: rest)
  | '2' :: [] => some (2, [])
  | '0' :: c :: rest =>
    if '1' ≤ c && c ≤ '9' then some (digitVal c, rest) else none
  | c :: rest =>
    if '1' ≤ c && c ≤ '9' then some (digitVal c, rest) else none
  | [] => none

/-- `%H` directive, regex `2[0-3]|[0-1]\d|\d`. -/
def matchHour : List Char → Option (Nat × List Char)
  | '2' :: c :: rest =>
    if c = '0' || c = '1' || c = '2' || c = '3' then some (20 + digitVal c, rest)
    else some (2, c :: rest)
  | '2' :: [] => some (2, [])
  | '0' :: c :: rest =>
    if c.isDigit then some (digitVal c, rest) else some (0, c :: rest)
  | '0' :: [] => some (0, [])
  | '1' :: c :: rest =>
    if c.isDigit then some (10 + digitVal c, rest) else some (1, c :: rest)
  | '1' :: [] => some (1, [])
  | c :: rest =>
    if c.isDigit then some (digitVal c, rest) else none
  | [] => none

/-- `%M` directive, regex `[0-5]\d|\d`. -/
def matchMinute : List Char → Option (Nat × List Char)
  | a :: b :: rest =>
    if ('0' ≤ a && a ≤ '5') && b.isDigit then some (10 * digitVal a + digitVal b, rest)
    else if a.isDigit then some (digitVal a, b :: rest)
    else none
  | a :: [] => if a.isDigit then some (digitVal a, []) else none
  | [] => none

/-- Consume a literal character. -/
def matchLit (c : Char) : List Char → Option (List Char)
  | a :: rest => if a = c then some rest else none
  | [] => none

/-- Consume one or more whitespace characters (`\s+`). -/
def matchSpaces : List Char → Option (List Char)
  | a :: rest =>
    if isSpaceChar a then some (rest.dropWhile isSpaceChar) else none
  | [] => none

/-- Gregorian leap year, as `calendar.isleap` / `datetime`. -/
def isLeap (y : Nat) : Bool := y % 4 == 0 && (y % 100 != 0 || y % 400 == 0)

/-- Number of days in a month (`datetime` day-of-month validation). -/
def daysInMonth (y m : Nat) : Nat :=
  if m = 2 then (if isLeap y then 29 else 28)
  else if m = 4 || m = 6 || m = 9 || m = 11 then 30
  else 31

/-- A parsed `datetime` value (date and wall-clock minute precision). -/
structure DateTime where
  year : Nat
  month : Nat
  day : Nat
  hour : Nat
  minute : Nat
  deriving DecidableEq, Repr

/-- `datetime.strptime(s, "%Y-%m-%d %H:%M")`: directive matching followed by
the `datetime` constructor's day-of-month and year-range validation; any
unconverted trailing data is an error. -/
def strptimeDateTime (s : String) : Option DateTime :=
  match matchYear s.toList with
  | none => none
  | some (y, r1) =>
    match matchLit '-' r1 with
    | none => none
    | some r2 =>
      match matchMonth r2 with
      | none => none
      | some (mo, r3) =>
        match matchLit '-' r3 with
        | none => none
        | some r4 =>
          match matchDay r4 with
          | none => none
          | some (d, r5) =>
            match matchSpaces r5 with
            | none => none
            | some r6 =>
              match matchHour r6 with
              | none => none
              | some (h, r7) =>
                match matchLit ':' r7 with
                | none => none
                | some r8 =>
                  match matchMinute r8 with
                  | none => none
                  | some (mi, r9) =>
                    if r9 = [] && 1 ≤ y && d ≤ daysInMonth y mo then
                      some ⟨y, mo, d, h, mi⟩
                    else none

/-- `datetime.strptime(s, "%Y-%m-%d")` (midnight time fields). -/
def strptimeDate (s : String) : Option DateTime :=
  match matchYear s.toList with
  | none => none
  | some (y, r1) =>
    match matchLit '-' r1 with
    | none => none
    | some r2 =>
      match matchMonth r2 with
      | none => none
      | some (mo, r3) =>
        match matchLit '-' r3 with
        | none => none
        | some r4 =>
          match matchDay r4 with
          | none => none
          | some (d, r5) =>
            if r5 = [] && 1 ≤ y && d ≤ daysInMonth y mo then
              some ⟨y, mo, d, 0, 0⟩
            else none

/-- Zero-pad a decimal rendering to two characters (`%m`, `%d`, `%H`, `%M`). -/
def pad2 (n : Nat) : String := if n < 10 then "0" ++ toString n else toString n

/-- Left-pad with zeros to a given width (`%Y` and Python `{:04d}`). -/
def padZeros (w : Nat) (s : String) : String :=
  String.mk (List.replicate (w - s.length) '0') ++ s

/-- `strftime("%Y-%m-%d")`. -/
def strftimeDate (dt : DateTime) : String :=
  padZeros 4 (toString dt.year) ++ "-" ++ pad2 dt.month ++ "-" ++ pad2 dt.day

/-- `strftime("%Y-%m-%d %H:%M")`, the normalized slot-key format. -/
def strftimeKey (dt : DateTime) : String :=
  strftimeDate dt ++ " " ++ pad2 dt.hour ++ ":" ++ pad2 dt.minute

/-- Days from the civil epoch through the months preceding month `m`. -/
def daysBeforeMonth (y m : Nat) : Nat :=
  [0, 31, 59, 90, 120, 151, 181, 212, 243, 273, 304, 334].getD (m - 1) 0 +
    (if 2 < m && isLeap y then 1 else 0)

/-- Proleptic-Gregorian day number (0001-01-01 is day 1). -/
def rataDie (y m d : Nat) : Nat :=
  365 * (y - 1) + (y - 1) / 4 - (y - 1) / 100 + (y - 1) / 400 + daysBeforeMonth y m + d

/-- Weekday index with 0 = Monday, as `datetime.weekday()`. -/
def weekdayIndex (dt : DateTime) : Nat :=
  (rataDie dt.year dt.month dt.day + 6) % 7

/-- `strftime("%A").lower()`. -/
def dayNameLower (i : Nat) : String :=
  ["monday", "tuesday", "wednesday", "thursday", "friday", "saturday",
   "sunday"].getD i ""

/-- Per-weekday entry of `dental_settings["businessHours"]`; `none` models
JSON `null`. -/
structure BusinessHours where
  start : Option String
  end_ : Option String
  breakStart : Option String
  breakEnd : Option String
  deriving DecidableEq, Repr

/-- `dental_settings["businessHours"].get(day_name)` with the
`load_dental_settings` fallback defaults. -/
def businessHoursFor : String → Option BusinessHours
  | "monday" => some ⟨some "09:00", some "17:00", some "12:00", some "13:00"⟩
  | "tuesday" => some ⟨some "09:00", some "17:00", some "12:00", some "13:00"⟩
  | "wednesday" => some ⟨some "09:00", some "17:00", some "12:00", some "13:00"⟩
  | "thursday" => some ⟨some "09:00", some "17:00", some "12:00", some "13:00"⟩
  | "friday" => some ⟨some "09:00", some "17:00", some "12:00", some "13:00"⟩
  | "saturday" => some ⟨some "09:00", some "14:00", none, none⟩
  | "sunday" => some ⟨none, none, none, none⟩
  | _ => none

/-- `dental_settings["appointmentTypes"].get(t, {}).get("duration", 30)`
with the default catalog. -/
def resolveDuration : String → Nat
  | "cleaning" => 45
  | "checkup" => 30
  | "consultation" => 45
  | "filling" => 60
  | "root_canal" => 120
  | "crown" => 90
  | "extraction" => 45
  | "emergency" => 30
  | _ => 30

/-- Decimal digits to a number (`int()` on the digit strings of the
default settings). -/
def digitsToNat (l : List Char) : Nat :=
  l.foldl (fun acc c => acc * 10 + digitVal c) 0

/-- `int(t.split(":")[0])` for an `"HH:MM"` string. -/
def hourOf (t : String) : Nat :=
  digitsToNat (t.toList.takeWhile (fun c => c ≠ ':'))

/-- `int(t.split(":")[1])` for an `"HH:MM"` string. -/
def minuteOf (t : String) : Nat :=
  digitsToNat (((t.toList.dropWhile (fun c => c ≠ ':')).drop 1).takeWhile
    (fun c => c ≠ ':'))

/-- Minutes from midnight of an `"HH:MM"` string. -/
def timeMins (t : String) : Nat := hourOf t * 60 + minuteOf t

/-- `strftime("%H:%M")` of a minutes-from-midnight value. -/
def fmtTime (m : Nat) : String := pad2 (m / 60) ++ ":" ++ pad2 (m % 60)

/-- One appointment record, the dict built in `book_appointment`. -/
structure Appointment where
  id : String
  patient_name : String
  patient_email : String
  date : String
  start_time : String
  appointment_type : String
  duration : Nat
  notes : String
  status : String
  deriving DecidableEq, Repr

/-- The module-level `appointments` dict: an insertion-ordered association
list from slot-key strings to appointment records. -/
abbrev Store : Type := List (String × Appointment)

/-- Dict membership test / item access: the entry stored at a key. -/
def lookup (s : Store) (k : String) : Option Appointment :=
  (List.find? (fun e => e.1 = k) s).map Prod.snd

/-- First appointment (with its slot key) whose `id` field matches, in dict
iteration order: the `for slot_key, apt in appointments.items()` search. -/
def findByIdKey (s : Store) (appointment_id : String) : Option (String × Appointment) :=
  List.find? (fun e => e.2.id = appointment_id) s

/-- `del appointments[k]`. -/
def eraseKey (s : Store) (k : String) : Store :=
  List.eraseP (fun e => e.1 = k) s

/-- Outcome of `book_appointment`, by the message returned. -/
inductive BookResult where
  | booked (a : Appointment)
  | slotTaken
  | invalidFormat
  deriving DecidableEq, Repr

/-- `book_appointment`: parse `f"{date} {start_time}"`, normalize the slot
key with `strftime`, reject when the key is present, otherwise build the
record with id `APT_{len(appointments)+1:04d}` and insert it. -/
def book_appointment (s : Store) (patient_name patient_email date start_time
    appointment_type : String) (notes : Option String) : BookResult × Store :=
  match strptimeDateTime (date ++ " " ++ start_time) with
  | none => (.invalidFormat, s)
  | some dt =>
    let slot_key := strftimeKey dt
    match lookup s slot_key with
    | some _ => (.slotTaken, s)
    | none =>
      let appointment : Appointment :=
        { id := "APT_" ++ padZeros 4 (toString (s.length + 1))
          patient_name := patient_name
          patient_email := patient_email
          date := date
          start_time := start_time
          appointment_type := appointment_type
          duration := resolveDuration appointment_type
          notes := notes.getD ""
          status := "confirmed" }
      (.booked appointment, s ++ [(slot_key, appointment)])

/-- Outcome of `reschedule_appointment`. -/
inductive RescheduleResult where
  | rescheduled (a : Appointment)
  | slotTaken
  | notFound
  deriving DecidableEq, Repr

/-- `reschedule_appointment`: find the appointment by id, build the new
slot key by RAW string concatenation `f"{new_date} {new_start_time}"` (no
parsing, no normalization), reject when that key is present, otherwise
mutate date/start_time, insert under the new key and delete the old key. -/
def reschedule_appointment (s : Store) (appointment_id new_date
    new_start_time : String) : RescheduleResult × Store :=
  match findByIdKey s appointment_id with
  | none => (.notFound, s)
  | some (old_slot_key, apt) =>
    let new_slot_key := new_date ++ " " ++ new_start_time
    match lookup s new_slot_key with
    | some _ => (.slotTaken, s)
    | none =>
      let apt2 := { apt with date := new_date, start_time := new_start_time }
      (.rescheduled apt2, eraseKey s old_slot_key ++ [(new_slot_key, apt2)])

/-- Outcome of `cancel_appointment`. -/
inductive CancelResult where
  | cancelled (a : Appointment)
  | notFound
  deriving DecidableEq, Repr

/-- `cancel_appointment`: find by id and delete its slot key; the reason
only decorates the confirmation text. -/
def cancel_appointment (s : Store) (appointment_id : String)
    (reason : Option String) : CancelResult × Store :=
  match findByIdKey s appointment_id with
  | none => (.notFound, s)
  | some (k, apt) => (.cancelled apt, eraseKey s k)

/-- `get_appointment`: first appointment in dict order with the given id. -/
def get_appointment (s : Store) (appointment_id : String) : Option Appointment :=
  (findByIdKey s appointment_id).map Prod.snd

/-- The slot-generation `while current_time < end_time` loop of
`check_availability`, with explicit fuel (the Python loop terminates since
every resolved duration is positive).  `brk` is the break window in
minutes when both `breakStart` and `breakEnd` are set, `ds` the
`strftime("%Y-%m-%d")` rendering of the target date used in slot keys. -/
def slotsLoop (s : Store) (ds : String) (brk : Option (Nat × Nat))
    (endT dur : Nat) : Nat → Nat → List String
  | 0, _ => []
  | Nat.succ fuel, cur =>
    if cur < endT then
      match brk with
      | some (bs, be) =>
        if bs ≤ cur ∧ cur < be then
          slotsLoop s ds brk endT dur fuel be
        else
          (if lookup s (ds ++ " " ++ fmtTime cur) = none then [fmtTime cur] else [])
            ++ slotsLoop s ds brk endT dur fuel (cur + dur)
      | none =>
        (if lookup s (ds ++ " " ++ fmtTime cur) = none then [fmtTime cur] else [])
          ++ slotsLoop s ds brk endT dur fuel (cur + dur)
    else []

/-- Outcome of `check_availability`: the list of generated free start
times (before the ten-slot display truncation), the closed message, the
date-format error, or the generic exception path (reachable only when
`start` is set but `end` is not, which no default day has). -/
inductive AvailResult where
  | slots (l : List String)
  | closed (dayName : String)
  | invalidDate
  | error
  deriving DecidableEq, Repr

/-- `check_availability`: parse the date, look up the weekday's hours
(closed when absent or `start` is null), resolve the duration, and run the
slot loop from `start_hour:00` to `end_hour:00`.  The `start_time` /
`end_time` parameters are declared but never read: `end_time` is
shadowed by the computed close datetime and `start_time` is unused. -/
def check_availability (s : Store) (date : String)
    ( start_time end_time : Option String) (appointment_type : String) :
    AvailResult :=
  match strptimeDate date with
  | none => .invalidDate
  | some dt =>
    let day_name := dayNameLower (weekdayIndex dt)
    match businessHoursFor day_name with
    | none => .closed day_name
    | some bh =>
      match bh.start with
      | none => .closed day_name
      | some st =>
        match bh.end_ with
        | none => .error
        | some en =>
          let dur := resolveDuration appointment_type
          let endT := hourOf en * 60
          let brk : Option (Nat × Nat) :=
            match bh.breakStart, bh.breakEnd with
            | some b1, some b2 => some (timeMins b1, timeMins b2)
            | _, _ => none
          .slots (slotsLoop s (strftimeDate dt) brk endT dur 2000 (hourOf st * 60))

/-- States of the `appointments` dict reachable from the empty dict by the
three mutating tools, with arbitrary string arguments. -/
inductive Reachable : Store → Prop where
  | empty : Reachable []
  | book (s : Store) (pn pe d t ty : String) (n : Option String) :
      Reachable s → Reachable (book_appointment s pn pe d t ty n).2
  | reschedule (s : Store) (i nd nt : String) :
      Reachable s → Reachable (reschedule_appointment s i nd nt).2
  | cancel (s : Store) (i : String) (r : Option String) :
      Reachable s → Reachable (cancel_appointment s i r).2

/-- The normalized (date, start-time) slot key of an appointment record:
its date/start fields parsed and reformatted the way `book_appointment`
normalizes keys; `none` when they do not parse. -/
def normalizedSlotKey (a : Appointment) : Option String :=
  (strptimeDateTime (a.date ++ " " ++ a.start_time)).map strftimeKey

/-- The spec's slot-key uniqueness invariant: no two distinct active
appointments share a normalized (date, start-time) position. -/
def SlotKeyUniqueness (s : Store) : Prop :=
  ∀ e1 ∈ s, ∀ e2 ∈ s, e1 ≠ e2 → normalizedSlotKey e1.2 ≠ normalizedSlotKey e2.2

/-- Store after booking Alice on Monday 2025-06-09 at 09:00 from empty. -/
def exS1 : Store :=
  (book_appointment [] "Alice" "a@x.com" "2025-06-09" "09:00" "checkup" none).2

/-- Store after additionally booking Bob on 2025-06-10 at 09:00. -/
def exS2 : Store :=
  (book_appointment exS1 "Bob" "b@x.com" "2025-06-10" "09:00" "checkup" none).2

/-- Store after rescheduling Bob to 2025-06-09 with the unpadded start
time string "9:00". -/
def exS3 : Store :=
  (reschedule_appointment exS2 "APT_0002" "2025-06-09" "9:00").2

/-- Store after cancelling Alice out of `exS2`. -/
def exS2c : Store := (cancel_appointment exS2 "APT_0001" none).2

/-- Alice's appointment record as `book_appointment` creates it. -/
def aptAlice : Appointment :=
  ⟨"APT_0001", "Alice", "a@x.com", "2025-06-09", "09:00", "checkup", 30, "",
    "confirmed"⟩

/-- Bob's appointment record as `book_appointment` creates it. -/
def aptBob : Appointment :=
  ⟨"APT_0002", "Bob", "b@x.com", "2025-06-10", "09:00", "checkup", 30, "",
    "confirmed"⟩

/-- The Sunday 03:00 booking record of the C4 scenario. -/
def aptSunday : Appointment :=
  ⟨"APT_0001", "X", "x@x.com", "2025-06-08", "03:00", "checkup", 30, "",
    "confirmed"⟩

/-- The slot list produced for a 45-minute cleaning on an open
09:00-17:00 weekday with a 12:00-13:00 break and an empty store. -/
def cleaningSlots : List String :=
  ["09:00", "09:45", "10:30", "11:15", "13:00", "13:45", "14:30", "15:15",
    "16:00", "16:45"]

/-- The slot list produced for a 30-minute checkup on an open 09:00-17:00
weekday with a 12:00-13:00 break and an empty store. -/
def checkupSlots : List String :=
  ["09:00", "09:30", "10:00", "10:30", "11:00", "11:30", "13:00", "13:30",
    "14:00", "14:30", "15:00", "15:30", "16:00", "16:30"]

theorem lookup_eq_none_iff (s : Store) (k : String) :
    lookup s k = none ↔ ∀ e ∈ s, e.1 ≠ k := by
  simp [lookup, List.find?_eq_none]

theorem not_mem_keys_of_lookup_none (s : Store) (k : String)
    (h : lookup s k = none) : k ∉ s.map Prod.fst := by
  rw [lookup_eq_none_iff] at h
  intro hk
  rcases List.mem_map.mp hk with ⟨e, he, hek⟩
  exact h e he hek

theorem lookup_append_self (s : Store) (k : String) (a : Appointment)
    (h : lookup s k = none) : lookup (s ++ [(k, a)]) k = some a := by
  simp only [lookup, Option.map_eq_none'] at h
  simp [lookup, List.find?_append, h]

theorem filter_key_eq_nil (s : Store) (k : String)
    (h : lookup s k = none) : s.filter (fun e => e.1 = k) = [] := by
  rw [lookup_eq_none_iff] at h
  rw [List.filter_eq_nil_iff]
  intro e he
  simp [h e he]

theorem lookup_of_mem_nodup (s : Store) (k : String) (a : Appointment)
    (hn : (s.map Prod.fst).Nodup) (hm : (k, a) ∈ s) : lookup s k = some a := by
  induction s with
  | nil => cases hm
  | cons e rest ih =>
    simp only [List.map_cons, List.nodup_cons] at hn
    rcases List.mem_cons.mp hm with hm | hm
    · subst hm
      simp [lookup, List.find?_cons]
    · have hk : e.1 ≠ k := by
        intro hk
        have hkm : k ∈ rest.map Prod.fst := List.mem_map.mpr ⟨(k, a), hm, rfl⟩
        exact hn.1 (hk ▸ hkm)
      have hrest := ih hn.2 hm
      simpa [lookup, List.find?_cons, hk] using hrest

theorem mem_of_findByIdKey (s : Store) (i : String) (e : String × Appointment)
    (h : findByIdKey s i = some e) : e ∈ s :=
  List.mem_of_find?_eq_some h

theorem id_of_findByIdKey (s : Store) (i : String) (e : String × Appointment)
    (h : findByIdKey s i = some e) : e.2.id = i := by
  have := List.find?_some h
  simpa using this

theorem eraseKey_sublist (s : Store) (k : String) :
    List.Sublist (eraseKey s k) s :=
  List.eraseP_sublist s

theorem book_snd_cases (s : Store) (pn pe d t ty : String) (n : Option String) :
    (book_appointment s pn pe d t ty n).2 = s ∨
    ∃ dt, strptimeDateTime (d ++ " " ++ t) = some dt ∧
      lookup s (strftimeKey dt) = none ∧
      (book_appointment s pn pe d t ty n).2 = s ++ [(strftimeKey dt,
        { id := "APT_" ++ padZeros 4 (toString (s.length + 1)),
          patient_name := pn, patient_email := pe, date := d, start_time := t,
          appointment_type := ty, duration := resolveDuration ty,
          notes := n.getD "", status := "confirmed" })] := by
  rcases h1 : strptimeDateTime (d ++ " " ++ t) with _ | dt
  · left
    simp [book_appointment, h1]
  · rcases h2 : lookup s (strftimeKey dt) with _ | a
    · right
      refine ⟨dt, rfl, h2, ?_⟩
      simp [book_appointment, h1, h2]
    · left
      simp [book_appointment, h1, h2]

theorem reschedule_snd_cases (s : Store) (i nd nt : String) :
    (reschedule_appointment s i nd nt).2 = s ∨
    ∃ k apt, findByIdKey s i = some (k, apt) ∧
      lookup s (nd ++ " " ++ nt) = none ∧
      (reschedule_appointment s i nd nt).2 =
        eraseKey s k ++ [(nd ++ " " ++ nt,
          { apt with date := nd, start_time := nt })] := by
  rcases h1 : findByIdKey s i with _ | ⟨k, apt⟩
  · left
    simp [reschedule_appointment, h1]
  · rcases h2 : lookup s (nd ++ " " ++ nt) with _ | b
    · right
      refine ⟨k, apt, rfl, rfl, ?_⟩
      simp [reschedule_appointment, h1, h2]
    · left
      simp [reschedule_appointment, h1, h2]

theorem cancel_snd_cases (s : Store) (i : String) (r : Option String) :
    (cancel_appointment s i r).2 = s ∨
    ∃ k apt, findByIdKey s i = some (k, apt) ∧
      (cancel_appointment s i r).2 = eraseKey s k := by
  rcases h1 : findByIdKey s i with _ | ⟨k, apt⟩
  · left
    simp [cancel_appointment, h1]
  · right
    refine ⟨k, apt, rfl, ?_⟩
    simp [cancel_appointment, h1]

theorem reachable_keys_nodup (s : Store) (h : Reachable s) :
    (s.map Prod.fst).Nodup := by
  induction h with
  | empty => simp
  | book s pn pe d t ty n hr ih =>
    rcases book_snd_cases s pn pe d t ty n with he | ⟨dt, h1, h2, he⟩
    · rw [he]; exact ih
    · rw [he]
      have hk := not_mem_keys_of_lookup_none s _ h2
      simp [List.nodup_append, ih, hk]
  | reschedule s i nd nt hr ih =>
    rcases reschedule_snd_cases s i nd nt with he | ⟨k, apt, hf, h2, he⟩
    · rw [he]; exact ih
    · rw [he]
      have hsub : List.Sublist ((eraseKey s k).map Prod.fst) (s.map Prod.fst) :=
        (eraseKey_sublist s k).map Prod.fst
      have hnd : ((eraseKey s k).map Prod.fst).Nodup := ih.sublist hsub
      have hk : (nd ++ " " ++ nt) ∉ (eraseKey s k).map Prod.fst := fun hmem =>
        not_mem_keys_of_lookup_none s _ h2 (hsub.subset hmem)
      simp [List.nodup_append, hnd, hk]
  | cancel s i r hr ih =>
    rcases cancel_snd_cases s i r with he | ⟨k, apt, hf, he⟩
    · rw [he]; exact ih
    · rw [he]
      exact ih.sublist ((eraseKey_sublist s k).map Prod.fst)

theorem reachable_status_confirmed (s : Store) (h : Reachable s) :
    ∀ e ∈ s, e.2.status = "confirmed" := by
  induction h with
  | empty => simp
  | book s pn pe d t ty n hr ih =>
    rcases book_snd_cases s pn pe d t ty n with he | ⟨dt, h1, h2, he⟩
    · rw [he]; exact ih
    · rw [he]
      intro e he'
      rcases List.mem_append.mp he' with hm | hm
      · exact ih e hm
      · simp only [List.mem_singleton] at hm
        rw [hm]
  | reschedule s i nd nt hr ih =>
    rcases reschedule_snd_cases s i nd nt with he | ⟨k, apt, hf, h2, he⟩
    · rw [he]; exact ih
    · rw [he]
      intro e he'
      rcases List.mem_append.mp he' with hm | hm
      · exact ih e ((eraseKey_sublist s k).subset hm)
      · simp only [List.mem_singleton] at hm
        rw [hm]
        exact ih (k, apt) (mem_of_findByIdKey s i (k, apt) hf)
  | cancel s i r hr ih =>
    rcases cancel_snd_cases s i r with he | ⟨k, apt, hf, he⟩
    · rw [he]; exact ih
    · rw [he]
      intro e he'
      exact ih e ((eraseKey_sublist s k).subset he')

theorem emit_eq (s : Store) (key t slot : String)
    (hm : t ∈ (if lookup s key = none then [slot] else [])) : t = slot := by
  rcases hl : lookup s key with _ | b
  · rw [if_pos hl] at hm
    simpa using hm
  · rw [if_neg (by simp [hl])] at hm
    cases hm

theorem slotsLoop_mem (s : Store) (ds : String) (brk : Option (Nat × Nat))
    (endT dur fuel : Nat) : ∀ cur t, t ∈ slotsLoop s ds brk endT dur fuel cur →
    ∃ c, t = fmtTime c ∧ c < endT ∧
      ∀ bs be, brk = some (bs, be) → ¬(bs ≤ c ∧ c < be) := by
  rcases brk with _ | ⟨bs, be⟩
  · induction fuel with
    | zero =>
      intro cur t ht
      cases ht
    | succ fuel ih =>
      intro cur t ht
      simp only [slotsLoop] at ht
      by_cases hlt : cur < endT
      · rw [if_pos hlt] at ht
        rcases List.mem_append.mp ht with hm | hm
        · refine ⟨cur, emit_eq s _ t _ hm, hlt, ?_⟩
          intro bs be h
          cases h
        · exact ih (cur + dur) t hm
      · rw [if_neg hlt] at ht
        cases ht
  · induction fuel with
    | zero =>
      intro cur t ht
      cases ht
    | succ fuel ih =>
      intro cur t ht
      simp only [slotsLoop] at ht
      by_cases hlt : cur < endT
      · rw [if_pos hlt] at ht
        by_cases hbr : bs ≤ cur ∧ cur < be
        · rw [if_pos hbr] at ht
          exact ih be t ht
        · rw [if_neg hbr] at ht
          rcases List.mem_append.mp ht with hm | hm
          · refine ⟨cur, emit_eq s _ t _ hm, hlt, ?_⟩
            intro bs2 be2 h
            injection h with h2
            injection h2 with hb1 hb2
            rw [← hb1, ← hb2]
            exact hbr
          · exact ih (cur + dur) t hm
      · rw [if_neg hlt] at ht
        cases ht

theorem book_booked_inv (s : Store) (pn pe d t ty : String) (n : Option String)
    (a : Appointment) (s' : Store)
    (hb : book_appointment s pn pe d t ty n = (.booked a, s')) :
    ∃ dt, strptimeDateTime (d ++ " " ++ t) = some dt ∧
      lookup s (strftimeKey dt) = none ∧
      a = { id := "APT_" ++ padZeros 4 (toString (s.length + 1)),
            patient_name := pn, patient_email := pe, date := d, start_time := t,
            appointment_type := ty, duration := resolveDuration ty,
            notes := n.getD "", status := "confirmed" } ∧
      s' = s ++ [(strftimeKey dt, a)] := by
  rcases h1 : strptimeDateTime (d ++ " " ++ t) with _ | dt
  · simp [book_appointment, h1] at hb
  · rcases h2 : lookup s (strftimeKey dt) with _ | b
    · simp [book_appointment, h1, h2] at hb
      refine ⟨dt, rfl, h2, hb.1.symm, ?_⟩
      rw [← hb.1]
      exact hb.2.symm
    · simp [book_appointment, h1, h2] at hb

/-- C7: with the default configuration (Monday open 09:00-17:00, break
12:00-13:00, checkup duration 30 minutes) and an empty store,
check_availability on Monday 2025-06-09 for a checkup yields exactly the
ascending start times 09:00, 09:30, ..., 11:30, 13:00, 13:30, ..., 16:30,
excluding 12:00 and 12:30. -/
theorem C7_reference_scenario :
    check_availability [] "2025-06-09" none none "checkup" =
      .slots checkupSlots := by
  decide

/-- C1 counterexample: a concrete reachable sequence (book Alice at
2025-06-09 09:00, book Bob at 2025-06-10 09:00, reschedule Bob to
2025-06-09 with the unpadded time string "9:00") leaves two active
appointments whose normalized slot keys are both "2025-06-09 09:00":
reschedule's raw-concatenated key "2025-06-09 9:00" bypasses the
occupancy check on the normalized key. -/
theorem C1_counterexample : Reachable exS3 ∧ ¬ SlotKeyUniqueness exS3 := by
  constructor
  · exact Reachable.reschedule exS2 "APT_0002" "2025-06-09" "9:00"
      (Reachable.book exS1 "Bob" "b@x.com" "2025-06-10" "09:00" "checkup" none
        (Reachable.book [] "Alice" "a@x.com" "2025-06-09" "09:00" "checkup" none
          Reachable.empty))
  · unfold SlotKeyUniqueness
    decide

/-- C1 (amended): in every reachable store state the RAW dict slot keys of
the active appointments are pairwise distinct (at most one appointment per
stored key); uniqueness of the NORMALIZED (date, start-time) position does
not hold, because reschedule builds its key by raw string concatenation of
its inputs while book normalizes via date-time parsing. -/
theorem C1_amended_raw_key_unique (s : Store) (h : Reachable s) :
    (s.map Prod.fst).Nodup :=
  reachable_keys_nodup s h

/-- C1 witness: the amended invariant instantiated at the reachable
two-appointment store. -/
theorem C1_witness : (exS2.map Prod.fst).Nodup :=
  C1_amended_raw_key_unique exS2
    (Reachable.book exS1 "Bob" "b@x.com" "2025-06-10" "09:00" "checkup" none
      (Reachable.book [] "Alice" "a@x.com" "2025-06-09" "09:00" "checkup" none
        Reachable.empty))

/-- C2: if a book call for (date, startTime) succeeds, a second book call
for the same (date, startTime) returns the slot-taken outcome with the
store unchanged, and the store holds exactly one appointment at that
normalized slot key, the one created by the first call. -/
theorem C2_double_booking_rejected (s : Store)
    (pn pe d t ty pn2 pe2 ty2 : String) (n n2 : Option String)
    (dt : DateTime) (a : Appointment) (s2 : Store)
    (hp : strptimeDateTime (d ++ " " ++ t) = some dt)
    (hb : book_appointment s pn pe d t ty n = (.booked a, s2)) :
    book_appointment s2 pn2 pe2 d t ty2 n2 = (.slotTaken, s2) ∧
      s2.filter (fun e => e.1 = strftimeKey dt) = [(strftimeKey dt, a)] := by
  obtain ⟨dt2, hp2, hfree, ha, hs2⟩ := book_booked_inv s pn pe d t ty n a s2 hb
  rw [hp] at hp2
  injection hp2 with hdt
  subst hdt
  have hl2 : lookup s2 (strftimeKey dt) = some a := by
    rw [hs2]
    exact lookup_append_self s _ a hfree
  constructor
  · simp [book_appointment, hp, hl2]
  · rw [hs2, List.filter_append, filter_key_eq_nil s _ hfree]
    simp

/-- C2 witness: Alice books Monday 2025-06-09 09:00 from the empty store;
Bob's identical (date, startTime) request is rejected and the store keeps
exactly Alice's appointment at that slot key. -/
theorem C2_witness :
    strptimeDateTime ("2025-06-09" ++ " " ++ "09:00") = some ⟨2025, 6, 9, 9, 0⟩ ∧
    book_appointment [] "Alice" "a@x.com" "2025-06-09" "09:00" "checkup" none =
      (.booked aptAlice, exS1) ∧
    (book_appointment exS1 "Bob" "b@x.com" "2025-06-09" "09:00" "checkup" none =
        (.slotTaken, exS1) ∧
      exS1.filter (fun e => e.1 = strftimeKey ⟨2025, 6, 9, 9, 0⟩) =
        [(strftimeKey ⟨2025, 6, 9, 9, 0⟩, aptAlice)]) :=
  ⟨by decide, by decide,
    C2_double_booking_rejected [] "Alice" "a@x.com" "2025-06-09" "09:00"
      "checkup" "Bob" "b@x.com" "checkup" none none ⟨2025, 6, 9, 9, 0⟩
      aptAlice exS1 (by decide) (by decide)⟩

/-- C3 counterexample: on open Monday 2025-06-09 with the default hours,
check_availability lists 16:45 for a 45-minute cleaning although
16:45 + 45m = 17:30 extends past the 17:00 close, and lists 11:00 for a
120-minute root canal although [11:00, 13:00) overlaps the 12:00-13:00
break: the loop tests only the candidate's start, never its interval. -/
theorem C3_counterexample :
    check_availability [] "2025-06-09" none none "cleaning" =
        .slots cleaningSlots ∧
      "16:45" ∈ cleaningSlots ∧
      timeMins "16:45" + resolveDuration "cleaning" > timeMins "17:00" ∧
      check_availability [] "2025-06-09" none none "root_canal" =
        .slots ["09:00", "11:00", "13:00", "15:00"] ∧
      timeMins "11:00" + resolveDuration "root_canal" > timeMins "12:00" := by
  decide

/-- C3 (amended): every start time listed by check_availability itself
lies strictly before closing time and outside the break window [break
start, break end) -- a candidate whose start falls inside the break is
skipped by jumping the cursor to break end -- but the slot's interval
[start, start + duration) may extend past closing time or overlap the
break when only its start is in bounds. -/
theorem C3_amended_start_within_hours (s : Store) (d ty t : String)
    (dt : DateTime) (bh : BusinessHours) (en : String) (l : List String)
    (h1 : strptimeDate d = some dt)
    (h2 : businessHoursFor (dayNameLower (weekdayIndex dt)) = some bh)
    (h4 : bh.end_ = some en)
    (h5 : check_availability s d none none ty = .slots l)
    (ht : t ∈ l) :
    ∃ c, t = fmtTime c ∧ c < hourOf en * 60 ∧
      ∀ b1 b2, bh.breakStart = some b1 → bh.breakEnd = some b2 →
        ¬(timeMins b1 ≤ c ∧ c < timeMins b2) := by
  rcases h3 : bh.start with _ | st
  · simp [check_availability, h1, h2, h3] at h5
  · rcases hb1 : bh.breakStart with _ | b1 <;> rcases hb2 : bh.breakEnd with _ | b2
    · simp only [check_availability, h1, h2, h3, h4, hb1, hb2] at h5
      injection h5 with h5
      rw [← h5] at ht
      obtain ⟨c, hc, hlt, _⟩ := slotsLoop_mem s (strftimeDate dt) none _ _ _ _ t ht
      exact ⟨c, hc, hlt, fun b1 b2 e1 => by cases e1⟩
    · simp only [check_availability, h1, h2, h3, h4, hb1, hb2] at h5
      injection h5 with h5
      rw [← h5] at ht
      obtain ⟨c, hc, hlt, _⟩ := slotsLoop_mem s (strftimeDate dt) none _ _ _ _ t ht
      exact ⟨c, hc, hlt, fun b1 b2 e1 => by cases e1⟩
    · simp only [check_availability, h1, h2, h3, h4, hb1, hb2] at h5
      injection h5 with h5
      rw [← h5] at ht
      obtain ⟨c, hc, hlt, _⟩ := slotsLoop_mem s (strftimeDate dt) none _ _ _ _ t ht
      exact ⟨c, hc, hlt, fun b1 b2 e1 e2 => by cases e2⟩
    · simp only [check_availability, h1, h2, h3, h4, hb1, hb2] at h5
      injection h5 with h5
      rw [← h5] at ht
      obtain ⟨c, hc, hlt, hnb⟩ := slotsLoop_mem s (strftimeDate dt)
        (some (timeMins b1, timeMins b2)) _ _ _ _ t ht
      refine ⟨c, hc, hlt, ?_⟩
      intro b1x b2x e1 e2
      injection e1 with e1
      injection e2 with e2
      rw [← e1, ← e2]
      exact hnb _ _ rfl

/-- C3 witness: the amended bound instantiated for the 09:00 cleaning slot
on Monday 2025-06-09. -/
theorem C3_witness :
    strptimeDate "2025-06-09" = some ⟨2025, 6, 9, 0, 0⟩ ∧
    businessHoursFor (dayNameLower (weekdayIndex ⟨2025, 6, 9, 0, 0⟩)) =
      some ⟨some "09:00", some "17:00", some "12:00", some "13:00"⟩ ∧
    (⟨some "09:00", some "17:00", some "12:00", some "13:00"⟩ :
      BusinessHours).end_ = some "17:00" ∧
    check_availability [] "2025-06-09" none none "cleaning" =
      .slots cleaningSlots ∧
    "09:00" ∈ cleaningSlots ∧
    (∃ c, "09:00" = fmtTime c ∧ c < hourOf "17:00" * 60 ∧
      ∀ b1 b2,
        (⟨some "09:00", some "17:00", some "12:00", some "13:00"⟩ :
          BusinessHours).breakStart = some b1 →
        (⟨some "09:00", some "17:00", some "12:00", some "13:00"⟩ :
          BusinessHours).breakEnd = some b2 →
        ¬(timeMins b1 ≤ c ∧ c < timeMins b2)) :=
  ⟨by decide, by decide, by decide, by decide, by decide,
    C3_amended_start_within_hours [] "2025-06-09" "cleaning" "09:00"
      ⟨2025, 6, 9, 0, 0⟩
      ⟨some "09:00", some "17:00", some "12:00", some "13:00"⟩ "17:00"
      cleaningSlots (by decide) (by decide) (by decide) (by decide)
      (by decide)⟩

/-- C4 counterexample: booking Sunday 2025-06-08 at 03:00 succeeds and is
stored, although Sunday has no configured hours -- book_appointment
performs no business-hours, break, or holiday validation at all. -/
theorem C4_counterexample :
    dayNameLower (weekdayIndex ⟨2025, 6, 8, 3, 0⟩) = "sunday" ∧
    businessHoursFor "sunday" = some ⟨none, none, none, none⟩ ∧
    book_appointment [] "X" "x@x.com" "2025-06-08" "03:00" "checkup" none =
      (.booked aptSunday, [("2025-06-08 03:00", aptSunday)]) := by
  decide

/-- C4 (amended): book validates only that the combined date/time string
parses; whenever it parses and the normalized slot key is unoccupied the
appointment is stored, regardless of business hours, breaks, weekday
closures, or holidays. -/
theorem C4_amended_parse_and_conflict_only (s : Store)
    (pn pe d t ty : String) (n : Option String) (dt : DateTime)
    (hp : strptimeDateTime (d ++ " " ++ t) = some dt)
    (hfree : lookup s (strftimeKey dt) = none) :
    book_appointment s pn pe d t ty n =
      (.booked { id := "APT_" ++ padZeros 4 (toString (s.length + 1)),
                 patient_name := pn, patient_email := pe, date := d,
                 start_time := t, appointment_type := ty,
                 duration := resolveDuration ty, notes := n.getD "",
                 status := "confirmed" },
        s ++ [(strftimeKey dt,
          { id := "APT_" ++ padZeros 4 (toString (s.length + 1)),
            patient_name := pn, patient_email := pe, date := d, start_time := t,
            appointment_type := ty, duration := resolveDuration ty,
            notes := n.getD "", status := "confirmed" })]) := by
  simp [book_appointment, hp, hfree]

/-- C4 witness: the amended characterization applied to the Sunday 03:00
booking. -/
theorem C4_witness :
    strptimeDateTime ("2025-06-08" ++ " " ++ "03:00") = some ⟨2025, 6, 8, 3, 0⟩ ∧
    lookup [] (strftimeKey ⟨2025, 6, 8, 3, 0⟩) = none ∧
    book_appointment [] "X" "x@x.com" "2025-06-08" "03:00" "checkup" none =
      (.booked { id := "APT_" ++ padZeros 4 (toString 1),
                 patient_name := "X", patient_email := "x@x.com",
                 date := "2025-06-08", start_time := "03:00",
                 appointment_type := "checkup",
                 duration := resolveDuration "checkup",
                 notes := "", status := "confirmed" },
        [(strftimeKey ⟨2025, 6, 8, 3, 0⟩,
          { id := "APT_" ++ padZeros 4 (toString 1),
            patient_name := "X", patient_email := "x@x.com",
            date := "2025-06-08", start_time := "03:00",
            appointment_type := "checkup", duration := resolveDuration "checkup",
            notes := "", status := "confirmed" })]) :=
  ⟨by decide, by decide,
    C4_amended_parse_and_conflict_only [] "X" "x@x.com" "2025-06-08" "03:00"
      "checkup" none ⟨2025, 6, 8, 3, 0⟩ (by decide) (by decide)⟩

/-- C5 counterexample: book Alice (APT_0001), book Bob (APT_0002), cancel
APT_0001, book Carol: ids are computed from the current dict size, so
Carol is assigned APT_0002 while Bob still holds APT_0002 -- the final
reachable store holds two appointments with the same identifier. -/
theorem C5_counterexample :
    Reachable (book_appointment exS2c "Carol" "c@x.com" "2025-06-11" "09:00"
        "checkup" none).2 ∧
    get_appointment exS2c "APT_0002" = some aptBob ∧
    (book_appointment exS2c "Carol" "c@x.com" "2025-06-11" "09:00" "checkup"
        none).1 =
      .booked ⟨"APT_0002", "Carol", "c@x.com", "2025-06-11", "09:00",
        "checkup", 30, "", "confirmed"⟩ ∧
    ((book_appointment exS2c "Carol" "c@x.com" "2025-06-11" "09:00" "checkup"
          none).2.filter (fun e => e.2.id = "APT_0002")).length = 2 := by
  refine ⟨?_, by decide, by decide, by decide⟩
  exact Reachable.book exS2c "Carol" "c@x.com" "2025-06-11" "09:00" "checkup"
    none
    (Reachable.cancel exS2 "APT_0001" none
      (Reachable.book exS1 "Bob" "b@x.com" "2025-06-10" "09:00" "checkup" none
        (Reachable.book [] "Alice" "a@x.com" "2025-06-09" "09:00" "checkup"
          none Reachable.empty)))

/-- C5 (amended): a successful book assigns the identifier
"APT_" + zero-padded (current store size + 1) and grows the store by one,
so identifiers are fresh and increasing across book-only sequences; after
a cancel shrinks the store, a later book can reuse a deleted (or even a
live) identifier. -/
theorem C5_amended_id_from_store_size (s : Store) (pn pe d t ty : String)
    (n : Option String) (a : Appointment) (s2 : Store)
    (hb : book_appointment s pn pe d t ty n = (.booked a, s2)) :
    a.id = "APT_" ++ padZeros 4 (toString (s.length + 1)) ∧
      s2.length = s.length + 1 := by
  obtain ⟨dt, hp, hfree, ha, hs⟩ := book_booked_inv s pn pe d t ty n a s2 hb
  subst ha
  refine ⟨rfl, ?_⟩
  rw [hs]
  simp

/-- C5 witness: Carol's booking into the two-then-one appointment store is
assigned id APT_0002 = "APT_" + pad(1 + 1). -/
theorem C5_witness :
    (⟨"APT_0002", "Carol", "c@x.com", "2025-06-11", "09:00", "checkup", 30,
        "", "confirmed"⟩ : Appointment).id =
      "APT_" ++ padZeros 4 (toString (exS2c.length + 1)) ∧
    (book_appointment exS2c "Carol" "c@x.com" "2025-06-11" "09:00" "checkup"
        none).2.length = exS2c.length + 1 :=
  C5_amended_id_from_store_size exS2c "Carol" "c@x.com" "2025-06-11" "09:00"
    "checkup" none
    ⟨"APT_0002", "Carol", "c@x.com", "2025-06-11", "09:00", "checkup", 30,
      "", "confirmed"⟩
    (book_appointment exS2c "Carol" "c@x.com" "2025-06-11" "09:00" "checkup"
        none).2
    (by decide)

/-- C6: rescheduling an existing appointment to a slot key occupied by a
different appointment returns the slot-taken outcome and leaves the store
completely unchanged; the original appointment is still stored under its
old slot key and still retrievable by id with its old date and time. -/
theorem C6_reschedule_conflict_atomic (s : Store) (i nd nt k : String)
    (apt occ : Appointment)
    (hn : (s.map Prod.fst).Nodup)
    (hf : findByIdKey s i = some (k, apt))
    (hocc : lookup s (nd ++ " " ++ nt) = some occ)
    (hdiff : occ ≠ apt) :
    reschedule_appointment s i nd nt = (.slotTaken, s) ∧
      lookup s k = some apt ∧ get_appointment s i = some apt := by
  refine ⟨?_, ?_, ?_⟩
  · simp [reschedule_appointment, hf, hocc]
  · exact lookup_of_mem_nodup s k apt hn (mem_of_findByIdKey s i _ hf)
  · simp [get_appointment, hf]

/-- C6 witness: moving Alice onto Bob's occupied 2025-06-10 09:00 slot is
rejected and the two-appointment store is untouched. -/
theorem C6_witness :
    (exS2.map Prod.fst).Nodup ∧
    findByIdKey exS2 "APT_0001" = some ("2025-06-09 09:00", aptAlice) ∧
    lookup exS2 ("2025-06-10" ++ " " ++ "09:00") = some aptBob ∧
    aptBob ≠ aptAlice ∧
    (reschedule_appointment exS2 "APT_0001" "2025-06-10" "09:00" =
        (.slotTaken, exS2) ∧
      lookup exS2 "2025-06-09 09:00" = some aptAlice ∧
      get_appointment exS2 "APT_0001" = some aptAlice) :=
  ⟨by decide, by decide, by decide, by decide,
    C6_reschedule_conflict_atomic exS2 "APT_0001" "2025-06-10" "09:00"
      "2025-06-09 09:00" aptAlice aptBob (by decide) (by decide) (by decide)
      (by decide)⟩

/-- C8 counterexample: supplying the 14:00-15:00 window on Monday
2025-06-09 still returns the full unfiltered checkup slot list, which
includes 09:00, a start strictly before the requested window start. -/
theorem C8_counterexample :
    check_availability [] "2025-06-09" (some "14:00") (some "15:00")
        "checkup" = .slots checkupSlots ∧
      "09:00" ∈ checkupSlots ∧
      timeMins "09:00" < timeMins "14:00" := by
  decide

/-- C8 (amended): the optional start/end time-window parameters of
check_availability are accepted but ignored -- the end_time parameter is
shadowed by the computed closing datetime and start_time is never read --
so every call returns exactly the unfiltered conflict-free candidate
list. -/
theorem C8_amended_window_ignored (s : Store) (d ty : String)
    ( start_time end_time : Option String) :
    check_availability s d start_time end_time ty =
      check_availability s d none none ty := rfl

/-- C9: rescheduling an active appointment to the exact slot key it
already occupies is rejected with the "already booked" outcome and the
store is unchanged, because the occupancy check on the target key does not
exempt the appointment being moved. -/
theorem C9_reschedule_to_own_slot_rejected (s : Store) (i nd nt k : String)
    (apt : Appointment)
    (hf : findByIdKey s i = some (k, apt))
    (hsame : nd ++ " " ++ nt = k) :
    reschedule_appointment s i nd nt = (.slotTaken, s) := by
  rcases hl : lookup s (nd ++ " " ++ nt) with _ | b
  · exfalso
    rw [hsame, lookup_eq_none_iff] at hl
    exact hl (k, apt) (mem_of_findByIdKey s i _ hf) rfl
  · simp [reschedule_appointment, hf, hl]

/-- C9 witness: rescheduling Alice to her own (2025-06-09, 09:00) slot is
rejected as already booked. -/
theorem C9_witness :
    findByIdKey exS1 "APT_0001" = some ("2025-06-09 09:00", aptAlice) ∧
    "2025-06-09" ++ " " ++ "09:00" = "2025-06-09 09:00" ∧
    reschedule_appointment exS1 "APT_0001" "2025-06-09" "09:00" =
      (.slotTaken, exS1) :=
  ⟨by decide, by decide,
    C9_reschedule_to_own_slot_rejected exS1 "APT_0001" "2025-06-09" "09:00"
      "2025-06-09 09:00" aptAlice (by decide) (by decide)⟩

/-- C10: in every reachable store state every stored appointment has
status "confirmed" -- book creates records with status "confirmed",
reschedule rewrites only the date and start-time fields, and cancel
physically deletes the record -- so a "cancelled" status is never
observable, in particular not through get_appointment. -/
theorem C10_stored_status_confirmed (s : Store) (h : Reachable s) :
    (∀ e ∈ s, e.2.status = "confirmed") ∧
    ∀ i a, get_appointment s i = some a → a.status = "confirmed" := by
  refine ⟨reachable_status_confirmed s h, ?_⟩
  intro i a ha
  rcases hf : findByIdKey s i with _ | ⟨k, b⟩
  · simp [get_appointment, hf] at ha
  · simp only [get_appointment, hf, Option.map_some'] at ha
    injection ha with ha
    rw [← ha]
    exact reachable_status_confirmed s h (k, b) (mem_of_findByIdKey s i _ hf)

/-- C10 witness: the invariant instantiated at the reachable store holding
Alice's booking. -/
theorem C10_witness :
    (∀ e ∈ exS1, e.2.status = "confirmed") ∧
    ∀ i a, get_appointment exS1 i = some a → a.status = "confirmed" :=
  C10_stored_status_confirmed exS1
    (Reachable.book [] "Alice" "a@x.com" "2025-06-09" "09:00" "checkup" none
      Reachable.empty)
